import Mathlib

/-!
Verification of the whisp media processor pipeline.

This file gives a shallow embedding of the chunk reassembly pipeline:
the R2 storage manager (download and upload of objects), the chunk
locator and two phase assembler of VideoProcessor, the Whisper
transcriber (timestamp formatting and SRT serialization), the
VideoPipeline orchestrator, and the Flask submission endpoint together
with the CLI entry point.  External effects (the ffmpeg tool, the
network, the speech model, the wall clock) are modelled by an oracle
record; the local filesystem is modelled as a list of existing paths.
-/

set_option maxRecDepth 40000

/-! ## String helpers

Models of the Python string and pathlib operations used by the source:
single character str.split, str.strip, pathlib suffix handling and
prefix tests (used to model shutil.rmtree on a directory tree).
-/

/-- Boolean test that the first list of characters is a prefix of the second. -/
def listPre : List Char → List Char → Bool
  | [], _ => true
  | _ :: _, [] => false
  | a :: as, b :: bs => a == b && listPre as bs

/-- Test that the string s starts with the string pre, over the character lists. -/
def strStartsWith (s pre : String) : Bool := listPre pre.data s.data

/-- Model of the Python str.split with a one character separator, on character lists.
The result is always a nonempty list of fragments. -/
def splitChar (c : Char) : List Char → List (List Char)
  | [] => [[]]
  | x :: xs =>
    match splitChar c xs with
    | [] => [[]]
    | r :: rs => if x = c then [] :: r :: rs else (x :: r) :: rs

/-- Model of the Python str.split with a one character separator. -/
def splitOnC (s : String) (c : Char) : List String :=
  (splitChar c s.data).map String.mk

/-- Python style indexing with index 0 on a split result (split never returns an empty list). -/
def headD0 (l : List String) : String := l.headD ""

/-- Python style indexing with index -1 on a split result. -/
def lastD0 (l : List String) : String := l.getLastD ""

/-- Model of Python str.strip: remove leading and trailing whitespace. -/
def pyStrip (s : String) : String :=
  String.mk (((s.data.dropWhile Char.isWhitespace).reverse.dropWhile Char.isWhitespace).reverse)

/-- Final path component, as in pathlib Path(p).name. -/
def path_name (p : String) : String := lastD0 (splitOnC p '/')

/-- Extension of the final path component including the dot, as in pathlib Path(p).suffix. -/
def path_suffix (p : String) : String :=
  let parts := splitOnC (path_name p) '.'
  if 2 ≤ parts.length ∧ headD0 parts ≠ "" then "." ++ lastD0 parts else ""

/-- Drop the last n characters of a string. -/
def strDropRight (s : String) (n : Nat) : String :=
  String.mk (s.data.take (s.data.length - n))

/-- Model of pathlib Path(p).with_suffix(suf): replace the extension of the
final component by suf. -/
def with_suffix (p suf : String) : String :=
  strDropRight p (path_suffix p).length ++ suf

theorem splitChar_ne_nil (c : Char) (l : List Char) : splitChar c l ≠ [] := by
  cases l with
  | nil => simp [splitChar]
  | cons x xs =>
    simp only [splitChar]
    cases h : splitChar c xs with
    | nil => simp
    | cons r rs => by_cases hx : x = c <;> simp [hx]

theorem splitChar_length (c : Char) (l : List Char) :
    (splitChar c l).length = l.count c + 1 := by
  induction l with
  | nil => simp [splitChar]
  | cons x xs ih =>
    simp only [splitChar]
    cases h : splitChar c xs with
    | nil => exact absurd h (splitChar_ne_nil c xs)
    | cons r rs =>
      rw [h] at ih
      rw [List.count_cons]
      dsimp only
      by_cases hx : x = c
      · rw [if_pos hx]
        have hb : (x == c) = true := by simp [hx]
        rw [hb]
        simp only [List.length_cons, if_pos] at ih ⊢
        omega
      · rw [if_neg hx]
        have hb : (x == c) = false := by simp [hx]
        rw [hb]
        simp only [List.length_cons, Bool.false_eq_true, if_false] at ih ⊢
        omega

theorem splitChar_of_not_mem (c : Char) (l : List Char) (h : c ∉ l) :
    splitChar c l = [l] := by
  induction l with
  | nil => simp [splitChar]
  | cons x xs ih =>
    simp only [List.mem_cons, not_or] at h
    simp only [splitChar, ih h.2]
    rw [if_neg (Ne.symm h.1)]

theorem splitChar_append_of_not_mem (c : Char) (xs ys : List Char) (r : List Char)
    (rs : List (List Char)) (hx : c ∉ xs) (hy : splitChar c ys = r :: rs) :
    splitChar c (xs ++ ys) = (xs ++ r) :: rs := by
  induction xs with
  | nil => simpa using hy
  | cons a as ih =>
    simp only [List.mem_cons, not_or] at hx
    simp only [List.cons_append, splitChar]
    have ih2 : splitChar c (as.append ys) = (as ++ r) :: rs := ih hx.2
    rw [ih2]
    dsimp only
    rw [if_neg (Ne.symm hx.1)]

theorem getLastD_of_ne_nil {α : Type} (l : List α) (d d' : α) (h : l ≠ []) :
    l.getLastD d = l.getLastD d' := by
  cases l with
  | nil => exact absurd rfl h
  | cons a as => rw [List.getLastD_cons, List.getLastD_cons]

theorem splitChar_getLastD (c : Char) (xs ys : List Char) (d : List Char) :
    (splitChar c (xs ++ c :: ys)).getLastD d = (splitChar c ys).getLastD d := by
  induction xs with
  | nil =>
    simp only [List.nil_append, splitChar]
    cases h : splitChar c ys with
    | nil => exact absurd h (splitChar_ne_nil c ys)
    | cons r rs =>
      dsimp only
      rw [if_pos trivial, List.getLastD_cons]
      exact getLastD_of_ne_nil (r :: rs) [] d (by simp)
  | cons a as ih =>
    simp only [List.cons_append, splitChar]
    cases h : splitChar c (as ++ c :: ys) with
    | nil => exact absurd h (splitChar_ne_nil c (as ++ c :: ys))
    | cons r rs =>
      dsimp only
      rw [h] at ih
      have hlen : rs ≠ [] := by
        have hl := splitChar_length c (as ++ c :: ys)
        rw [h] at hl
        intro hrs
        subst hrs
        simp only [List.length_cons, List.length_nil, List.count_append,
          List.count_cons, beq_self_eq_true, if_pos] at hl
        omega
      by_cases hx : a = c
      · rw [if_pos hx, List.getLastD_cons,
          getLastD_of_ne_nil (r :: rs) [] d (by simp)]
        exact ih
      · rw [if_neg hx]
        cases rs with
        | nil => exact absurd rfl hlen
        | cons b bs =>
          rw [List.getLastD_cons,
            getLastD_of_ne_nil (b :: bs) (a :: r) d (by simp)]
          rw [List.getLastD_cons,
            getLastD_of_ne_nil (b :: bs) r d (by simp)] at ih
          exact ih

/-! ## Filesystem model

The local filesystem is the list of currently existing paths (files and
directories alike).  The pipeline only ever tests existence, creates,
deletes one path, or deletes a whole directory tree.
-/

/-- A filesystem is the list of paths that exist. -/
abbrev FS := List String

/-- Existence test for a path. -/
def FS.exists (fs : FS) (p : String) : Bool := decide (p ∈ fs)

/-- Create a path (no duplicates, as with exist_ok makedirs or overwriting opens). -/
def FS.create (fs : FS) (p : String) : FS := if p ∈ fs then fs else p :: fs

/-- Delete one path, as with Path.unlink. -/
def FS.remove (fs : FS) (p : String) : FS := fs.filter (fun q => !(q == p))

/-- Delete a whole tree, as with shutil.rmtree: every path that starts with
the directory path disappears. -/
def FS.removeTree (fs : FS) (d : String) : FS := fs.filter (fun q => !(strStartsWith q d))

theorem FS.exists_iff_mem (fs : FS) (p : String) : fs.exists p = true ↔ p ∈ fs := by
  simp [FS.exists]

theorem FS.exists_create_self (fs : FS) (p : String) : (fs.create p).exists p = true := by
  simp only [FS.create]
  split <;> simp [FS.exists_iff_mem]
  assumption

theorem FS.exists_create_mono (fs : FS) (p q : String) (h : fs.exists p = true) :
    (fs.create q).exists p = true := by
  simp only [FS.create]
  rw [FS.exists_iff_mem] at h
  split <;> simp [FS.exists_iff_mem, h]

theorem FS.exists_remove_self (fs : FS) (p : String) : (fs.remove p).exists p = false := by
  simp only [FS.remove]
  rw [← Bool.not_eq_true, FS.exists_iff_mem, List.mem_filter]
  intro h
  simp at h

theorem FS.not_startsWith_of_mem_removeTree (fs : FS) (d p : String)
    (h : p ∈ fs.removeTree d) : strStartsWith p d = false := by
  simp only [FS.removeTree, List.mem_filter] at h
  simpa using h.2

theorem FS.exists_removeTree_of_not_startsWith (fs : FS) (d p : String)
    (h : strStartsWith p d = false) : (fs.removeTree d).exists p = fs.exists p := by
  simp only [FS.removeTree, FS.exists]
  by_cases hm : p ∈ fs
  · simp [List.mem_filter, hm, h]
  · simp only [decide_eq_decide]
    simp [List.mem_filter, hm]

/-! ## VideoProcessor: chunk locator

Model of VideoProcessor.find_chunk_sequences (src/app/worker.py lines
182 to 205 and src/chunksToVideo.py lines 39 to 62): for each track the
loop scans indices 0 to 999, appends the pair (i, dir/track_i.webm)
whenever that file exists, and finally sorts by index.
-/

/-- File name of one chunk: track_index.webm. -/
def chunk_name (track : String) (i : Nat) : String :=
  track ++ "_" ++ Nat.repr i ++ ".webm"

/-- Full path of one chunk inside its track directory. -/
def chunk_path (dir track : String) (i : Nat) : String :=
  dir ++ "/" ++ chunk_name track i

/-- The scanning loop for one track: for i in range(1000), keep (i, path)
when the file exists.  The loop visits indices in ascending order. -/
def scan_chunks (fs : FS) (dir track : String) : List (Nat × String) :=
  ((List.range 1000).filter (fun i => fs.exists (chunk_path dir track i))).map
    (fun i => (i, chunk_path dir track i))

/-- Insertion of a pair into a list sorted by index. -/
def insertPair (x : Nat × String) : List (Nat × String) → List (Nat × String)
  | [] => [x]
  | y :: ys => if x.1 ≤ y.1 then x :: y :: ys else y :: insertPair x ys

/-- Sorting by the index component.  This models the Python stable sort
with the key lambda x colon x zero; on the distinct indices produced by
the scan every comparison sort yields this same result. -/
def sortPairs : List (Nat × String) → List (Nat × String)
  | [] => []
  | x :: xs => insertPair x (sortPairs xs)

/-- Model of find_chunk_sequences: scan both track directories, then sort
each result by the index component. -/
def find_chunk_sequences (fs : FS) (video_chunks_dir audio_chunks_dir : String) :
    List (Nat × String) × List (Nat × String) :=
  (sortPairs (scan_chunks fs video_chunks_dir "video"),
   sortPairs (scan_chunks fs audio_chunks_dir "audio"))

theorem scan_chunks_pairwise (fs : FS) (dir track : String) :
    (scan_chunks fs dir track).Pairwise (fun a b => a.1 < b.1) := by
  unfold scan_chunks
  rw [List.pairwise_map]
  exact List.Pairwise.sublist (List.filter_sublist _) (List.pairwise_lt_range 1000)

theorem sortPairs_of_pairwise_lt (l : List (Nat × String))
    (h : l.Pairwise (fun a b => a.1 < b.1)) : sortPairs l = l := by
  induction l with
  | nil => rfl
  | cons x xs ih =>
    rw [List.pairwise_cons] at h
    simp only [sortPairs, ih h.2]
    cases xs with
    | nil => rfl
    | cons y ys =>
      have hxy : x.1 ≤ y.1 := Nat.le_of_lt (h.1 y (by simp))
      simp [insertPair, hxy]

theorem mergeSort_scan_eq (fs : FS) (dir track : String) :
    sortPairs (scan_chunks fs dir track) = scan_chunks fs dir track :=
  sortPairs_of_pairwise_lt _ (scan_chunks_pairwise fs dir track)

theorem mem_scan_chunks (fs : FS) (dir track : String) (i : Nat) (p : String) :
    (i, p) ∈ scan_chunks fs dir track ↔
      i < 1000 ∧ fs.exists (chunk_path dir track i) = true ∧ p = chunk_path dir track i := by
  unfold scan_chunks
  simp only [List.mem_map, List.mem_filter, List.mem_range, Prod.mk.injEq]
  constructor
  · rintro ⟨j, ⟨hj, hex⟩, hji, hp⟩
    subst hji
    exact ⟨hj, hex, hp.symm⟩
  · rintro ⟨hi, hex, hp⟩
    exact ⟨i, ⟨hi, hex⟩, rfl, hp.symm⟩

theorem find_chunk_sequences_eq (fs : FS) (vdir adir : String) :
    find_chunk_sequences fs vdir adir =
      (scan_chunks fs vdir "video", scan_chunks fs adir "audio") := by
  unfold find_chunk_sequences
  rw [mergeSort_scan_eq, mergeSort_scan_eq]

/-! ## VideoProcessor: two phase assembler

Model of VideoProcessor.concatenate_raw_chunks (src/app/worker.py lines
207 to 252 and src/chunksToVideo.py lines 64 to 109).  The function
returns False at once on an empty chunk list.  Otherwise it opens the
scratch file output_path.with_suffix(.temp.webm), byte concatenates the
chunks into it, invokes the ffmpeg remux pass onto output_path, removes
the scratch file if it exists and returns the remux outcome; any
exception is caught, the scratch file removed if it exists, and False
returned.  The oracle decides whether the splice raises (before or
after the scratch file came to exist) and whether the remux succeeds.
-/

/-- Outcome of the byte splicing loop decided by the oracle. -/
inductive SpliceOutcome
  | ok
  | raiseBeforeCreate
  | raiseAfterCreate
deriving DecidableEq

/-- External outcomes for one call of concatenate_raw_chunks. -/
structure ConcatOracle where
  splice : SpliceOutcome
  remuxOk : Bool
deriving DecidableEq

/-- Result of one call of concatenate_raw_chunks: the returned boolean,
the filesystem afterwards, and whether the ffmpeg remux pass ran. -/
structure ConcatOut where
  success : Bool
  fs : FS
  remuxInvoked : Bool
deriving DecidableEq

/-- Model of concatenate_raw_chunks. -/
def concatenate_raw_chunks (chunks : List (Nat × String)) (output_path : String)
    (o : ConcatOracle) (fs : FS) : ConcatOut :=
  if chunks.isEmpty then { success := false, fs := fs, remuxInvoked := false }
  else
    let temp_concat_path := with_suffix output_path ".temp.webm"
    match o.splice with
    | SpliceOutcome.raiseBeforeCreate =>
        { success := false,
          fs := if fs.exists temp_concat_path then fs.remove temp_concat_path else fs,
          remuxInvoked := false }
    | SpliceOutcome.raiseAfterCreate =>
        let fs1 := fs.create temp_concat_path
        { success := false,
          fs := if fs1.exists temp_concat_path then fs1.remove temp_concat_path else fs1,
          remuxInvoked := false }
    | SpliceOutcome.ok =>
        let fs1 := fs.create temp_concat_path
        let fs2 := if o.remuxOk then fs1.create output_path else fs1
        { success := o.remuxOk,
          fs := if fs2.exists temp_concat_path then fs2.remove temp_concat_path else fs2,
          remuxInvoked := true }

theorem concat_nil (output_path : String) (o : ConcatOracle) (fs : FS) :
    concatenate_raw_chunks [] output_path o fs =
      { success := false, fs := fs, remuxInvoked := false } := rfl

theorem concat_fail_success (chunks : List (Nat × String)) (output_path : String)
    (o : ConcatOracle) (fs : FS)
    (h : o.splice ≠ SpliceOutcome.ok ∨ o.remuxOk = false) :
    (concatenate_raw_chunks chunks output_path o fs).success = false := by
  unfold concatenate_raw_chunks
  by_cases he : chunks.isEmpty
  · simp [he]
  · simp only [Bool.not_eq_true] at he
    simp only [he, Bool.false_eq_true, if_false]
    cases hs : o.splice <;> simp
    rcases h with h | h
    · exact absurd hs h
    · exact h

theorem concat_ok_eq (chunks : List (Nat × String)) (output_path : String)
    (o : ConcatOracle) (fs : FS) (hne : chunks.isEmpty = false)
    (hs : o.splice = SpliceOutcome.ok) (hr : o.remuxOk = true) :
    concatenate_raw_chunks chunks output_path o fs =
      { success := true,
        fs := ((fs.create (with_suffix output_path ".temp.webm")).create
          output_path).remove (with_suffix output_path ".temp.webm"),
        remuxInvoked := true } := by
  unfold concatenate_raw_chunks
  simp only [hne, Bool.false_eq_true, if_false, hs, hr, if_true]
  have hex : ((fs.create (with_suffix output_path ".temp.webm")).create
      output_path).exists (with_suffix output_path ".temp.webm") = true :=
    FS.exists_create_mono _ _ _ (FS.exists_create_self fs _)
  rw [hex]
  simp

/-! ## WhisperTranscriber: timestamp formatting and SRT serialization

Model of WhisperTranscriber.format_timestamp and convert_to_srt
(src/app/worker.py lines 458 to 488).  Seconds are modelled as exact
rationals; the Python int() truncation toward zero is pyInt and the
Python modulo (floor convention) is pyMod.
-/

/-- One timed segment of a Whisper result. -/
structure Segment where
  id : Nat
  start : ℚ
  stop : ℚ
  text : String

/-- A Whisper transcription result: detected language, full text and segments. -/
structure WhisperResult where
  language : String
  text : String
  segments : List Segment

/-- Model of the Python int() conversion: truncation toward zero. -/
def pyInt (q : ℚ) : Int := if 0 ≤ q then ⌊q⌋ else -⌊-q⌋

/-- Model of the Python modulo on numbers: floor convention remainder. -/
def pyMod (a b : ℚ) : ℚ := a - b * ⌊a / b⌋

/-- Zero padded decimal rendering with a minimal width, as in formatted
string literals with 02d or 03d. -/
def padNum (w : Nat) (n : Int) : String :=
  let s := toString n
  if s.length < w then String.mk (List.replicate (w - s.length) '0') ++ s else s

/-- Model of format_timestamp: convert seconds to the SRT timestamp form
HH:MM:SS,mmm.  Hours use int(seconds/3600), minutes
int((seconds%3600)/60), then seconds%60, and the milliseconds are
int((secs - int(secs))*1000), a truncation. -/
def format_timestamp (seconds : ℚ) : String :=
  let hours := pyInt (seconds / 3600)
  let minutes := pyInt (pyMod seconds 3600 / 60)
  let secs := pyMod seconds 60
  let milliseconds := pyInt ((secs - (pyInt secs : ℚ)) * 1000)
  padNum 2 hours ++ ":" ++ padNum 2 minutes ++ ":" ++ padNum 2 (pyInt secs)
    ++ "," ++ padNum 3 milliseconds

/-- The cue text built for the segment at position i (1 based) inside
convert_to_srt: index, newline, start --> end, newline, stripped text
and a blank line. -/
def srt_cue (i : Nat) (seg : Segment) : String :=
  Nat.repr i ++ "\n" ++ format_timestamp seg.start ++ " --> " ++ format_timestamp seg.stop
    ++ "\n" ++ pyStrip seg.text ++ "\n\n"

/-- The accumulation loop of convert_to_srt: enumerate starting at the
given counter and append each cue. -/
def srt_entries : Nat → List Segment → String
  | _, [] => ""
  | i, seg :: rest => srt_cue i seg ++ srt_entries (i + 1) rest

/-- Model of convert_to_srt: enumerate the segments from 1 and concatenate
the cues. -/
def convert_to_srt (result : WhisperResult) : String := srt_entries 1 result.segments

/-- Restatement of the subtitle artifact from the words of the spec: each
segment becomes one cue numbered consecutively from 1, of the form
index, newline, start --> end, newline, text and a blank line. -/
def srt_from_spec (result : WhisperResult) : String :=
  ((result.segments.enumFrom 1).map (fun e => srt_cue e.1 e.2)).foldr (fun a b => a ++ b) ""

theorem srt_entries_enumFrom (segs : List Segment) (n : Nat) :
    srt_entries n segs =
      ((segs.enumFrom n).map (fun e => srt_cue e.1 e.2)).foldr (fun a b => a ++ b) "" := by
  induction segs generalizing n with
  | nil => rfl
  | cons s rest ih =>
    simp only [srt_entries, List.enumFrom, List.map_cons, List.foldr_cons, ih (n + 1)]

/-! ## CloudflareR2Manager

Model of the storage manager (src/app/worker.py lines 25 to 147).  The
remote listing and per key upload outcomes are supplied by the oracle.
-/

/-- Final component of an object key, as in key.split with slash, index -1. -/
def key_file (key : String) : String := lastD0 (splitOnC key '/')

/-- Track classification of an object key, as in
file.split dot index 0 then split underscore index 0. -/
def key_chunk_type (key : String) : String :=
  headD0 (splitOnC (headD0 (splitOnC (key_file key) '.')) '_')

/-- Local target path of a downloaded object: audio named files go to
local_dir/audio, everything else to local_dir/video, then the file name. -/
def download_dir (local_dir key : String) : String :=
  if key_chunk_type key = "audio" then local_dir ++ "/audio" else local_dir ++ "/video"

/-- Local file path where a downloaded object is written. -/
def download_target (local_dir key : String) : String :=
  download_dir local_dir key ++ "/" ++ key_file key

/-- Download every listed object: makedirs on the track directory then
write the file. -/
def downloadAll (local_dir : String) (keys : List String) (fs : FS) : FS :=
  keys.foldl (fun a k => (a.create (download_dir local_dir k)).create
    (download_target local_dir k)) fs

/-- Model of download_chunks: when the listing raises or reports no
Contents the call returns False; otherwise every object is fetched and
the call returns True.  A raise after n fetched objects leaves the first
n files behind (the exception is caught and False returned). -/
def download_chunks (local_dir : String) (listing : List String)
    (downloadRaises : Option Nat) (fs : FS) : Bool × FS :=
  match downloadRaises with
  | some n => (false, downloadAll local_dir (listing.take n) fs)
  | none =>
      if listing.isEmpty then (false, fs)
      else (true, downloadAll local_dir listing fs)

/-- The deliverable kinds handled by upload_processed_files.  The
transcriptJson kind appears in the source only as a commented out block. -/
inductive Artifact
  | video
  | audio
  | subtitle
  | transcriptJson
deriving DecidableEq

/-- Model of upload_processed_files (src/app/worker.py lines 110 to 147):
attempt the video upload when the video path exists, the audio upload
when the audio path exists (extension taken from the file), and the SRT
upload when the subtitle path exists; the JSON transcript upload is
commented out in the source and never attempted.  Returns the overall
flag (False as soon as one attempt failed) and the ordered list of
attempted uploads with their remote keys. -/
def upload_processed_files (fs : FS) (uploadOk : String → Bool)
    (upload_dir user_id : String) (video_path : Option String)
    (audio_path : Option String) (transcript_paths : Option (String × String)) :
    Bool × List (Artifact × String) :=
  let v :=
    match video_path with
    | some vp =>
      if fs.exists vp then
        let k := upload_dir ++ "/final_video_" ++ user_id ++ ".mp4"
        (uploadOk k, [(Artifact.video, k)])
      else (true, [])
    | none => (true, [])
  let a :=
    match audio_path with
    | some ap =>
      if fs.exists ap then
        let k := upload_dir ++ "/final_audio_" ++ user_id ++ path_suffix ap
        (uploadOk k, [(Artifact.audio, k)])
      else (true, [])
    | none => (true, [])
  let s :=
    match transcript_paths with
    | some js =>
      if fs.exists js.2 then
        let k := upload_dir ++ "/subtitle_" ++ user_id ++ ".srt"
        (uploadOk k, [(Artifact.subtitle, k)])
      else (true, [])
    | none => (true, [])
  (v.1 && a.1 && s.1, v.2 ++ a.2 ++ s.2)

/-! ## Configuration (src/app/driver.py)

set_config derives every directory from the three job identifiers.
-/

/-- The configuration record returned by set_config. -/
structure Config where
  MEETING_ID : String
  TAKE : String
  USER_ID : String
  PREFIX : String
  DIR : String
  REMOTE_DIR : String
  LOCAL_DIR : String
  OUTPUT_DIR : String
  UPLOAD_DIR : String
deriving DecidableEq

/-- Model of driver.set_config. -/
def set_config (meeting_id take user_id : String) : Config :=
  let dir := meeting_id ++ "/" ++ take ++ "/" ++ user_id
  { MEETING_ID := meeting_id
    TAKE := take
    USER_ID := user_id
    PREFIX := "recordings"
    DIR := dir
    REMOTE_DIR := "recordings" ++ "/" ++ dir
    LOCAL_DIR := "../chunks/" ++ dir
    OUTPUT_DIR := "../recordings/" ++ dir
    UPLOAD_DIR := "recordings" ++ "/" ++ (meeting_id ++ "/" ++ take) }

/-! ## VideoPipeline orchestrator

Model of VideoPipeline (src/app/worker.py lines 571 to 816).  The run
method executes: directory setup, ffmpeg preflight, chunk download,
chunk discovery, video concatenation (fatal on failure), audio
concatenation (degrading on failure), WAV conversion for transcription,
transcription, WAV save, final mux (fatal on failure), upload, and a
finally block that removes the local working directories when cleanup
is requested.
-/

/-- Constructor arguments of VideoPipeline. -/
structure PipelineArgs where
  meeting_id : String
  take : String
  user_id : String
  remote_dir : String
  local_dir : String
  output_dir : String
  upload_dir : String
  whisper_model : String
deriving DecidableEq

/-- Pipeline arguments built from a set_config result, the wiring the
application intends. -/
def args_of_config (c : Config) (wm : String) : PipelineArgs :=
  { meeting_id := c.MEETING_ID
    take := c.TAKE
    user_id := c.USER_ID
    remote_dir := c.REMOTE_DIR
    local_dir := c.LOCAL_DIR
    output_dir := c.OUTPUT_DIR
    upload_dir := c.UPLOAD_DIR
    whisper_model := wm }

/-- Oracle for the external effects of one run: ffmpeg availability, the
remote listing, a possible exception while downloading, the outcomes of
the two assemblies, of the WAV conversions, of the model load and of
the transcription, of the final mux, the per key upload outcomes, and
the wall clock timestamp string. -/
structure RunOracle where
  ffmpegOk : Bool
  listing : List String
  downloadRaises : Option Nat
  videoSplice : SpliceOutcome
  videoRemuxOk : Bool
  audioSplice : SpliceOutcome
  audioRemuxOk : Bool
  wavForTranscriptionOk : Bool
  whisperLoadOk : Bool
  transcribeResult : Option WhisperResult
  saveWavOk : Bool
  muxOk : Bool
  uploadOk : String → Bool
  now : String

/-- Observable outcome of one run: the returned boolean, the filesystem,
the attempted uploads in order, whether the final mux ran, and whether
the cleanup step ran. -/
structure RunOut where
  success : Bool
  fs : FS
  uploads : List (Artifact × String)
  muxInvoked : Bool
  cleanupRan : Bool
deriving DecidableEq

/-- The scoped temporary directory created by tempfile.TemporaryDirectory
for one run. -/
def tempDirPath : String := "/tmp/pipeline"

/-- Model of setup_directories: create the seven local directories. -/
def setup_directories (args : PipelineArgs) (fs : FS) : FS :=
  [args.local_dir, args.local_dir ++ "/video", args.local_dir ++ "/audio",
   args.output_dir, args.output_dir ++ "/video", args.output_dir ++ "/audio",
   args.output_dir ++ "/transcripts"].foldl FS.create fs

/-- Model of WhisperTranscriber.transcribe_audio: when the model load
fails or the transcription raises, None is returned; otherwise the JSON
and SRT transcript files (named by the current timestamp) are written
and the pair of their paths returned. -/
def transcribe_audio (o : RunOracle) (output_dir : String) (fs : FS) :
    Option (String × String) × FS :=
  if o.whisperLoadOk then
    match o.transcribeResult with
    | none => (none, fs)
    | some _ =>
        let json_path := output_dir ++ "/transcript_" ++ o.now ++ ".json"
        let srt_path := output_dir ++ "/transcript_" ++ o.now ++ ".srt"
        (some (json_path, srt_path), (fs.create json_path).create srt_path)
  else (none, fs)

/-- The fetch outcome of a run: the boolean returned by download_chunks. -/
def fetchOk (args : PipelineArgs) (o : RunOracle) (fs0 : FS) : Bool :=
  (download_chunks args.local_dir o.listing o.downloadRaises
    (setup_directories args fs0)).1

/-- The filesystem after the fetch stage of a run. -/
def fetchFS (args : PipelineArgs) (o : RunOracle) (fs0 : FS) : FS :=
  (download_chunks args.local_dir o.listing o.downloadRaises
    (setup_directories args fs0)).2

/-- The chunk sequences discovered after the fetch stage. -/
def foundChunks (args : PipelineArgs) (o : RunOracle) (fs0 : FS) :
    List (Nat × String) × List (Nat × String) :=
  find_chunk_sequences (fetchFS args o fs0) (args.local_dir ++ "/video")
    (args.local_dir ++ "/audio")

/-- The video track assembly of a run, into the scoped temporary directory. -/
def videoConcatOut (args : PipelineArgs) (o : RunOracle) (fs0 : FS) : ConcatOut :=
  concatenate_raw_chunks (foundChunks args o fs0).1
    (tempDirPath ++ "/video_concatenated.webm")
    ⟨o.videoSplice, o.videoRemuxOk⟩ (fetchFS args o fs0)

/-- The audio track assembly of a run: skipped when no audio chunk was
found, and a failure merely yields no audio path (video only mode). -/
def audioStepOut (args : PipelineArgs) (o : RunOracle) (fs0 : FS) : Option String × FS :=
  if (foundChunks args o fs0).2.isEmpty then (none, (videoConcatOut args o fs0).fs)
  else
    let ac := concatenate_raw_chunks (foundChunks args o fs0).2
      (tempDirPath ++ "/audio_concatenated.webm")
      ⟨o.audioSplice, o.audioRemuxOk⟩ (videoConcatOut args o fs0).fs
    if ac.success then (some (tempDirPath ++ "/audio_concatenated.webm"), ac.fs)
    else (none, ac.fs)

/-- The WAV conversion for transcription: attempted only when an audio
track was assembled and transcription was not skipped. -/
def wavStepOut (args : PipelineArgs) (o : RunOracle) (sk : Bool) (fs0 : FS) :
    Option String × FS :=
  if (audioStepOut args o fs0).1.isSome && !sk then
    if o.wavForTranscriptionOk then
      (some (tempDirPath ++ "/audio_for_transcription.wav"),
       (audioStepOut args o fs0).2.create (tempDirPath ++ "/audio_for_transcription.wav"))
    else (none, (audioStepOut args o fs0).2)
  else (none, (audioStepOut args o fs0).2)

/-- The transcription stage: runs only when not skipped and a WAV exists. -/
def trStepOut (args : PipelineArgs) (o : RunOracle) (sk : Bool) (fs0 : FS) :
    Option (String × String) × FS :=
  if !sk && (wavStepOut args o sk fs0).1.isSome then
    transcribe_audio o (args.output_dir ++ "/transcripts") (wavStepOut args o sk fs0).2
  else (none, (wavStepOut args o sk fs0).2)

/-- The timestamped final video path of a run. -/
def final_video_path (args : PipelineArgs) (o : RunOracle) : String :=
  args.output_dir ++ "/video/output_" ++ o.now ++ ".mp4"

/-- The timestamped final audio path of a run. -/
def final_audio_path (args : PipelineArgs) (o : RunOracle) : String :=
  args.output_dir ++ "/audio/audio_" ++ o.now ++ ".wav"

/-- The WAV save stage: attempted only when an audio track was assembled. -/
def saveStepOut (args : PipelineArgs) (o : RunOracle) (sk : Bool) (fs0 : FS) :
    Option String × FS :=
  if (audioStepOut args o fs0).1.isSome then
    if o.saveWavOk then
      (some (final_audio_path args o),
       (trStepOut args o sk fs0).2.create (final_audio_path args o))
    else (none, (trStepOut args o sk fs0).2)
  else (none, (trStepOut args o sk fs0).2)

/-- The filesystem at the publish stage: the final video written by the
mux, then the scoped temporary directory removed at the end of the with
block. -/
def publishFS (args : PipelineArgs) (o : RunOracle) (sk : Bool) (fs0 : FS) : FS :=
  ((saveStepOut args o sk fs0).2.create (final_video_path args o)).removeTree tempDirPath

/-- The publish stage: upload_processed_files on the final video, the
saved audio if any, and the transcript pair if any. -/
def publishOut (args : PipelineArgs) (o : RunOracle) (sk : Bool) (fs0 : FS) :
    Bool × List (Artifact × String) :=
  upload_processed_files (publishFS args o sk fs0) o.uploadOk args.upload_dir
    args.user_id (some (final_video_path args o)) (saveStepOut args o sk fs0).1
    (trStepOut args o sk fs0).1

/-- Model of the try block of VideoPipeline.run: directory setup, ffmpeg
preflight (fatal), fetch (fatal), chunk discovery (fatal when no video
chunk), video assembly (fatal), the degrading middle stages, the final
mux (fatal), and the publish stage whose boolean is the returned
outcome. -/
def runBody (args : PipelineArgs) (o : RunOracle) (sk : Bool) (fs0 : FS) : RunOut :=
  if o.ffmpegOk = false then ⟨false, setup_directories args fs0, [], false, false⟩ else
  if fetchOk args o fs0 = false then ⟨false, fetchFS args o fs0, [], false, false⟩ else
  if (foundChunks args o fs0).1.isEmpty then
    ⟨false, fetchFS args o fs0, [], false, false⟩ else
  if (videoConcatOut args o fs0).success = false then
    ⟨false, (videoConcatOut args o fs0).fs.removeTree tempDirPath, [], false, false⟩ else
  if o.muxOk = false then
    ⟨false, (saveStepOut args o sk fs0).2.removeTree tempDirPath, [], true, false⟩ else
  ⟨(publishOut args o sk fs0).1, publishFS args o sk fs0,
   (publishOut args o sk fs0).2, true, false⟩

/-- Model of cleanup_local_files: remove both local trees. -/
def cleanup_local_files (args : PipelineArgs) (fs : FS) : FS :=
  (fs.removeTree args.local_dir).removeTree args.output_dir

/-- Model of VideoPipeline.run: the try block, then the finally block
which runs the cleanup when requested. -/
def run (args : PipelineArgs) (o : RunOracle) (cleanup skip_transcription : Bool)
    (fs0 : FS) : RunOut :=
  let r := runBody args o skip_transcription fs0
  if cleanup then
    { r with fs := cleanup_local_files args r.fs, cleanupRan := true }
  else r

/-! ## Flask endpoint (src/app/routes.py) and CLI entry point

The endpoint validates the request, then starts a daemon thread whose
body calls VideoPipeline with only the whisper_model keyword argument;
the seven required positional constructor parameters receive no
argument, so Python raises TypeError inside the thread, where the
guard catches and logs it.
-/

/-- The allowed Whisper model names. -/
def valid_models : List String := ["tiny", "base", "small", "medium", "large"]

/-- The constructor parameters of VideoPipeline in declaration order;
the boolean records whether the parameter has a default value. -/
def videoPipelineParams : List (String × Bool) :=
  [("meeting_id", false), ("take", false), ("user_id", false), ("remote_dir", false),
   ("local_dir", false), ("output_dir", false), ("upload_dir", false),
   ("whisper_model", true)]

/-- Python call binding for the VideoPipeline constructor: the required
parameters that receive no value from the given count of positional
arguments and the given keyword names.  A nonempty result means the
call raises TypeError before the constructor body runs. -/
def videoPipelineMissing (positional : Nat) (kwargs : List String) : List String :=
  (videoPipelineParams.drop positional).filterMap
    (fun p => if !p.2 && !(kwargs.contains p.1) then some p.1 else none)

/-- Observable outcome of the background thread started by the endpoint. -/
inductive ThreadRes
  | notStarted
  | raisedBeforeRun (missing : List String)
  | ran (out : RunOut)
deriving DecidableEq

/-- Model of the run_pipeline thread body: it calls VideoPipeline with
only the whisper_model keyword argument.  When required parameters are
missing the TypeError is caught by the guard of the thread and only
logged.  The other branch is unreachable at this call site because the
seven required parameters receive no argument there. -/
def run_pipeline (_whisper_model : String) (_cleanup _skip : Bool) : ThreadRes :=
  match videoPipelineMissing 0 ["whisper_model"] with
  | [] => ThreadRes.notStarted
  | m => ThreadRes.raisedBeforeRun m

/-- A submission request body, as read by request.get_json. -/
structure SubmitReq where
  meeting_id : Option String
  take : Option String
  user_id : Option String
  whisper_model : Option String
  cleanup : Bool
  skip_transcription : Bool

/-- The HTTP response of the endpoint together with the observable
outcome of the background thread. -/
structure SubmitResp where
  code : Nat
  status : String
  thread : ThreadRes
deriving DecidableEq

/-- Model of routes.submit_data: missing or empty identifiers give 400;
set_config runs; an invalid whisper model gives 400 before the thread
starts; otherwise the endpoint replies 200 success and the thread runs. -/
def submit_data (req : SubmitReq) : SubmitResp :=
  match req.meeting_id, req.take, req.user_id with
  | some m, some t, some u =>
    if m.isEmpty || t.isEmpty || u.isEmpty then
      { code := 400, status := "error", thread := ThreadRes.notStarted }
    else
      let _config := set_config m t u
      let wm := req.whisper_model.getD "base"
      if valid_models.contains wm = false then
        { code := 400, status := "error", thread := ThreadRes.notStarted }
      else
        { code := 200, status := "success",
          thread := run_pipeline wm req.cleanup req.skip_transcription }
  | _, _, _ => { code := 400, status := "error", thread := ThreadRes.notStarted }

/-- Observable outcome of the CLI main of src/app/worker.py. -/
inductive CliOut
  | exited (code : Nat)
  | raisedBeforeRun (missing : List String)
deriving DecidableEq

/-- Model of the validation and pipeline start in main (src/app/worker.py
lines 870 to 879): an invalid whisper model exits with code 1 before
any pipeline object exists; otherwise the VideoPipeline call with only
the whisper_model keyword raises an uncaught TypeError. -/
def worker_main (whisper_model : String) (_cleanup _skip : Bool) : CliOut :=
  if valid_models.contains whisper_model = false then CliOut.exited 1
  else
    match videoPipelineMissing 0 ["whisper_model"] with
    | [] => CliOut.exited 0
    | m => CliOut.raisedBeforeRun m

/-! ## Helper lemmas for the claims -/

theorem exists_cond_remove (fs : FS) (p : String) :
    (if fs.exists p then fs.remove p else fs).exists p = false := by
  by_cases h : fs.exists p = true
  · rw [if_pos h]
    exact FS.exists_remove_self fs p
  · rw [if_neg h]
    exact Bool.eq_false_iff.mpr h

theorem scan_chunks_nil (dir track : String) : scan_chunks ([] : FS) dir track = [] := by
  unfold scan_chunks
  simp [FS.exists]

/-! ## Claim theorems -/

/-- Claim C10: on the empty chunk sequence, concatenate_raw_chunks returns
failure immediately: the scratch file is not created, the remux pass is
not invoked, and the filesystem, in particular the destination path, is
untouched. -/
theorem C10_concat_empty_rejected (output_path : String) (o : ConcatOracle) (fs : FS) :
    concatenate_raw_chunks [] output_path o fs =
      { success := false, fs := fs, remuxInvoked := false } := rfl

/-- Claim C8: for every nonempty chunk list, the phase one scratch file
(the temp byte concatenation) does not exist when concatenate_raw_chunks
returns, whether the remux succeeded, the remux failed, or an exception
was raised during splicing. -/
theorem C8_scratch_always_removed (chunks : List (Nat × String)) (output_path : String)
    (o : ConcatOracle) (fs : FS) (hne : chunks.isEmpty = false) :
    ((concatenate_raw_chunks chunks output_path o fs).fs).exists
      (with_suffix output_path ".temp.webm") = false := by
  unfold concatenate_raw_chunks
  simp only [hne, Bool.false_eq_true, if_false]
  cases o.splice <;> exact exists_cond_remove _ _

/-- Witness for claim C8 at a concrete one chunk call with a successful
remux. -/
theorem C8_scratch_always_removed_witness :
    ([((0 : Nat), "c/video_0.webm")] : List (Nat × String)).isEmpty = false ∧
    ((concatenate_raw_chunks [(0, "c/video_0.webm")] "out/video_concatenated.webm"
      { splice := SpliceOutcome.ok, remuxOk := true } []).fs).exists
      (with_suffix "out/video_concatenated.webm" ".temp.webm") = false :=
  ⟨rfl, C8_scratch_always_removed [(0, "c/video_0.webm")] "out/video_concatenated.webm"
    { splice := SpliceOutcome.ok, remuxOk := true } [] rfl⟩

/-- Claim C3: for every pair of chunk directories the locator returns, per
track, exactly the pairs of index and path whose file track_i.webm
exists for i below 1000, strictly ascending in the index; missing
indices are simply absent, and with no chunks at all the result is the
pair of empty sequences rather than an error. -/
theorem C3_find_chunk_sequences_spec (fs : FS) (vdir adir : String) :
    (∀ i p, (i, p) ∈ (find_chunk_sequences fs vdir adir).1 ↔
      (i < 1000 ∧ fs.exists (chunk_path vdir "video" i) = true ∧
        p = chunk_path vdir "video" i)) ∧
    (∀ i p, (i, p) ∈ (find_chunk_sequences fs vdir adir).2 ↔
      (i < 1000 ∧ fs.exists (chunk_path adir "audio" i) = true ∧
        p = chunk_path adir "audio" i)) ∧
    (find_chunk_sequences fs vdir adir).1.Pairwise (fun a b => a.1 < b.1) ∧
    (find_chunk_sequences fs vdir adir).2.Pairwise (fun a b => a.1 < b.1) ∧
    find_chunk_sequences ([] : FS) vdir adir = ([], []) := by
  simp only [find_chunk_sequences_eq]
  refine ⟨?_, ?_, ?_, ?_, ?_⟩
  · intro i p
    exact mem_scan_chunks fs vdir "video" i p
  · intro i p
    exact mem_scan_chunks fs adir "audio" i p
  · exact scan_chunks_pairwise fs vdir "video"
  · exact scan_chunks_pairwise fs adir "audio"
  · rw [scan_chunks_nil, scan_chunks_nil]

theorem pyInt_of_nonneg (q : ℚ) (h : 0 ≤ q) : pyInt q = ⌊q⌋ := if_pos h

/-- Claim C6: the subtitle artifact has one cue per segment, numbered
consecutively from 1, each cue being index, newline, start --> end,
newline, text and a blank line; timestamps are HH:MM:SS,mmm where hours
may exceed 24 and milliseconds truncate rather than round, and in
particular 3725.4 seconds formats as 01:02:05,400. -/
theorem C6_srt_spec :
    (∀ r : WhisperResult, convert_to_srt r = srt_from_spec r) ∧
    format_timestamp (3725.4 : ℚ) = "01:02:05,400" ∧
    format_timestamp (90000 : ℚ) = "25:00:00,000" ∧
    format_timestamp (1.9999 : ℚ) = "00:00:01,999" := by
  refine ⟨fun r => srt_entries_enumFrom r.segments 1, ?_, ?_, ?_⟩
  · have h1 : pyInt ((3725.4 : ℚ) / 3600) = 1 := by
      rw [pyInt_of_nonneg _ (by norm_num)]
      norm_num
    have h2 : pyMod (3725.4 : ℚ) 3600 = 125.4 := by
      unfold pyMod
      norm_num
    have h3 : pyInt ((125.4 : ℚ) / 60) = 2 := by
      rw [pyInt_of_nonneg _ (by norm_num)]
      norm_num
    have h4 : pyMod (3725.4 : ℚ) 60 = 5.4 := by
      unfold pyMod
      norm_num
    have h5 : pyInt (5.4 : ℚ) = 5 := by
      rw [pyInt_of_nonneg _ (by norm_num)]
      norm_num
    have h6 : pyInt (((5.4 : ℚ) - ((5 : ℤ) : ℚ)) * 1000) = 400 := by
      rw [pyInt_of_nonneg _ (by norm_num)]
      norm_num
    simp only [format_timestamp, h1, h2, h3, h4, h5, h6]
    rfl
  · have h1 : pyInt ((90000 : ℚ) / 3600) = 25 := by
      rw [pyInt_of_nonneg _ (by norm_num)]
      norm_num
    have h2 : pyMod (90000 : ℚ) 3600 = 0 := by
      unfold pyMod
      norm_num
    have h3 : pyInt ((0 : ℚ) / 60) = 0 := by
      rw [pyInt_of_nonneg _ (by norm_num)]
      norm_num
    have h4 : pyMod (90000 : ℚ) 60 = 0 := by
      unfold pyMod
      norm_num
    have h5 : pyInt (0 : ℚ) = 0 := by
      rw [pyInt_of_nonneg _ (by norm_num)]
      norm_num
    have h6 : pyInt (((0 : ℚ) - ((0 : ℤ) : ℚ)) * 1000) = 0 := by
      rw [pyInt_of_nonneg _ (by norm_num)]
      norm_num
    simp only [format_timestamp, h1, h2, h3, h4, h5, h6]
    rfl
  · have h1 : pyInt ((1.9999 : ℚ) / 3600) = 0 := by
      rw [pyInt_of_nonneg _ (by norm_num)]
      norm_num
    have h2 : pyMod (1.9999 : ℚ) 3600 = 1.9999 := by
      unfold pyMod
      norm_num
    have h3 : pyInt ((1.9999 : ℚ) / 60) = 0 := by
      rw [pyInt_of_nonneg _ (by norm_num)]
      norm_num
    have h4 : pyMod (1.9999 : ℚ) 60 = 1.9999 := by
      unfold pyMod
      norm_num
    have h5 : pyInt (1.9999 : ℚ) = 1 := by
      rw [pyInt_of_nonneg _ (by norm_num)]
      norm_num
    have h6 : pyInt (((1.9999 : ℚ) - ((1 : ℤ) : ℚ)) * 1000) = 999 := by
      rw [pyInt_of_nonneg _ (by norm_num)]
      norm_num
    simp only [format_timestamp, h1, h2, h3, h4, h5, h6]
    rfl

/-- Claim C2: every accepted submission (identifiers present and nonempty,
whisper model in the allowed set) receives the 200 success reply, yet
the background thread raises a TypeError at the VideoPipeline call
because the seven required positional constructor arguments are
missing, so the run never starts: no stage executes and the failure is
only caught and logged inside the thread guard. -/
theorem C2_thread_raises (req : SubmitReq) (m t u w : String)
    (hm : req.meeting_id = some m) (ht : req.take = some t) (hu : req.user_id = some u)
    (hme : m.isEmpty = false) (hte : t.isEmpty = false) (hue : u.isEmpty = false)
    (hw : req.whisper_model = some w) (hv : valid_models.contains w = true) :
    submit_data req =
      { code := 200, status := "success",
        thread := ThreadRes.raisedBeforeRun
          ["meeting_id", "take", "user_id", "remote_dir", "local_dir",
           "output_dir", "upload_dir"] } := by
  unfold submit_data
  rw [hm, ht, hu]
  dsimp only
  rw [hme, hte, hue, hw]
  simp only [Bool.or_self, Bool.false_eq_true, if_false, Option.getD_some, hv,
    Bool.true_eq_false]
  rfl

/-- Witness for claim C2 at a concrete accepted request. -/
theorem C2_thread_raises_witness :
    submit_data
      { meeting_id := some "m1", take := some "t1", user_id := some "u1",
        whisper_model := some "base", cleanup := true, skip_transcription := false } =
      { code := 200, status := "success",
        thread := ThreadRes.raisedBeforeRun
          ["meeting_id", "take", "user_id", "remote_dir", "local_dir",
           "output_dir", "upload_dir"] } :=
  C2_thread_raises _ "m1" "t1" "u1" "base" rfl rfl rfl rfl rfl rfl rfl rfl

/-- Claim C9: a submission whose whisper model lies outside the five
allowed values is rejected with a 400 reply before any thread starts,
and the CLI with an invalid model exits with code 1 before any
pipeline object exists: no model load, no directory, no fetch, no
stage. -/
theorem C9_invalid_model_rejected :
    (∀ (req : SubmitReq) (w : String), req.whisper_model = some w →
      valid_models.contains w = false →
      submit_data req =
        { code := 400, status := "error", thread := ThreadRes.notStarted }) ∧
    (∀ (w : String) (cl sk : Bool), valid_models.contains w = false →
      worker_main w cl sk = CliOut.exited 1) := by
  constructor
  · intro req w hw hv
    unfold submit_data
    cases hm : req.meeting_id with
    | none => rfl
    | some m =>
      cases ht : req.take with
      | none => rfl
      | some t =>
        cases hu : req.user_id with
        | none => rfl
        | some u =>
          dsimp only
          by_cases he : (m.isEmpty || t.isEmpty || u.isEmpty) = true
          · rw [if_pos he]
          · rw [if_neg he, hw]
            dsimp only [Option.getD_some]
            rw [hv, if_pos rfl]
  · intro w cl sk hv
    unfold worker_main
    rw [hv, if_pos rfl]

/-- Witness for claim C9 at the concrete invalid model name huge, both for
the endpoint and for the CLI. -/
theorem C9_invalid_model_rejected_witness :
    submit_data
      { meeting_id := some "m1", take := some "t1", user_id := some "u1",
        whisper_model := some "huge", cleanup := true, skip_transcription := false } =
      { code := 400, status := "error", thread := ThreadRes.notStarted } ∧
    worker_main "huge" true false = CliOut.exited 1 :=
  ⟨C9_invalid_model_rejected.1 _ "huge" rfl rfl,
   C9_invalid_model_rejected.2 "huge" true false rfl⟩

theorem cleanup_removes (args : PipelineArgs) (fs : FS) (p : String)
    (hp : p ∈ cleanup_local_files args fs) :
    strStartsWith p args.local_dir = false ∧ strStartsWith p args.output_dir = false := by
  unfold cleanup_local_files at hp
  refine ⟨?_, FS.not_startsWith_of_mem_removeTree _ _ _ hp⟩
  unfold FS.removeTree at hp
  have h1 : p ∈ FS.removeTree fs args.local_dir := (List.mem_filter.mp hp).1
  exact FS.not_startsWith_of_mem_removeTree _ _ _ h1

/-- Claim C5: when the remote listing under the source prefix reports zero
objects, the fetch step returns failure and the run terminates with
overall failure at that stage: no artifact is uploaded, the mux never
runs, and the cleanup of the local working directories still executes
(under the default cleanup setting). -/
theorem C5_empty_listing_fatal (args : PipelineArgs) (o : RunOracle) (sk : Bool)
    (fs0 : FS) (hff : o.ffmpegOk = true) (hl : o.listing = []) :
    (run args o true sk fs0).success = false ∧
    (run args o true sk fs0).uploads = [] ∧
    (run args o true sk fs0).muxInvoked = false ∧
    (run args o true sk fs0).cleanupRan = true ∧
    (∀ p ∈ (run args o true sk fs0).fs, strStartsWith p args.local_dir = false ∧
      strStartsWith p args.output_dir = false) := by
  have hdl1 : fetchOk args o fs0 = false := by
    unfold fetchOk download_chunks
    rw [hl]
    cases o.downloadRaises <;> simp
  have hbody : runBody args o sk fs0 = ⟨false, fetchFS args o fs0, [], false, false⟩ := by
    unfold runBody
    simp only [hff, Bool.true_eq_false, if_false, hdl1, if_true]
  unfold run
  simp only [hbody, if_true]
  refine ⟨trivial, trivial, trivial, trivial, ?_⟩
  intro p hp
  exact cleanup_removes args _ p hp

theorem upload_attempts_indep (fs : FS) (uok uok' : String → Bool) (ud uid : String)
    (vp ap : Option String) (tp : Option (String × String)) :
    (upload_processed_files fs uok ud uid vp ap tp).2 =
      (upload_processed_files fs uok' ud uid vp ap tp).2 := by
  unfold upload_processed_files
  rcases vp with _ | vpath <;> rcases ap with _ | apath <;> rcases tp with _ | js <;>
    dsimp only
  all_goals try split_ifs
  all_goals rfl

theorem upload_success_eq_all (fs : FS) (uok : String → Bool) (ud uid : String)
    (vp ap : Option String) (tp : Option (String × String)) :
    (upload_processed_files fs uok ud uid vp ap tp).1 =
      (upload_processed_files fs uok ud uid vp ap tp).2.all (fun e => uok e.2) := by
  unfold upload_processed_files
  rcases vp with _ | vpath <;> rcases ap with _ | apath <;> rcases tp with _ | js <;>
    dsimp only
  all_goals try split_ifs
  all_goals simp [List.all_cons, Bool.and_assoc]

theorem upload_tags_nodup (fs : FS) (uok : String → Bool) (ud uid : String)
    (vp ap : Option String) (tp : Option (String × String)) :
    ((upload_processed_files fs uok ud uid vp ap tp).2.map Prod.fst).Nodup := by
  unfold upload_processed_files
  rcases vp with _ | vpath <;> rcases ap with _ | apath <;> rcases tp with _ | js <;>
    dsimp only
  all_goals try split_ifs
  all_goals simp

theorem upload_video_attempted_iff (fs : FS) (uok : String → Bool) (ud uid : String)
    (vp ap : Option String) (tp : Option (String × String)) :
    (∃ k, (Artifact.video, k) ∈ (upload_processed_files fs uok ud uid vp ap tp).2) ↔
      (∃ vpath, vp = some vpath ∧ fs.exists vpath = true) := by
  unfold upload_processed_files
  rcases vp with _ | vpath <;> rcases ap with _ | apath <;> rcases tp with _ | js <;>
    dsimp only
  all_goals try split_ifs
  all_goals simp_all

theorem upload_audio_attempted_iff (fs : FS) (uok : String → Bool) (ud uid : String)
    (vp ap : Option String) (tp : Option (String × String)) :
    (∃ k, (Artifact.audio, k) ∈ (upload_processed_files fs uok ud uid vp ap tp).2) ↔
      (∃ apath, ap = some apath ∧ fs.exists apath = true) := by
  unfold upload_processed_files
  rcases vp with _ | vpath <;> rcases ap with _ | apath <;> rcases tp with _ | js <;>
    dsimp only
  all_goals try split_ifs
  all_goals simp_all

theorem upload_subtitle_attempted_iff (fs : FS) (uok : String → Bool) (ud uid : String)
    (vp ap : Option String) (tp : Option (String × String)) :
    (∃ k, (Artifact.subtitle, k) ∈ (upload_processed_files fs uok ud uid vp ap tp).2) ↔
      (∃ js, tp = some js ∧ fs.exists js.2 = true) := by
  unfold upload_processed_files
  rcases vp with _ | vpath <;> rcases ap with _ | apath <;> rcases tp with _ | js <;>
    dsimp only
  all_goals try split_ifs
  all_goals simp_all

theorem runBody_success_uploads (args : PipelineArgs) (o : RunOracle) (sk : Bool)
    (fs0 : FS) :
    (runBody args o sk fs0).success = true →
    (runBody args o sk fs0).uploads.all (fun e => o.uploadOk e.2) = true := by
  unfold runBody
  by_cases h1 : o.ffmpegOk = false
  · simp [h1]
  rw [if_neg h1]
  by_cases h2 : fetchOk args o fs0 = false
  · simp [h2]
  rw [if_neg h2]
  by_cases h3 : (foundChunks args o fs0).1.isEmpty = true
  · simp [h3]
  rw [if_neg h3]
  by_cases h4 : (videoConcatOut args o fs0).success = false
  · simp [h4]
  rw [if_neg h4]
  by_cases h5 : o.muxOk = false
  · simp [h5]
  rw [if_neg h5]
  dsimp only
  intro h
  unfold publishOut at h ⊢
  rw [upload_success_eq_all] at h
  exact h

/-! ## Symbolic execution lemmas for the success paths -/

theorem exists_downloadAll_mono (local_dir : String) (keys : List String) (fs : FS)
    (p : String) (h : fs.exists p = true) :
    (downloadAll local_dir keys fs).exists p = true := by
  induction keys generalizing fs with
  | nil => exact h
  | cons k ks ih =>
    unfold downloadAll
    simp only [List.foldl_cons]
    exact ih _ (FS.exists_create_mono _ _ _ (FS.exists_create_mono _ _ _ h))

theorem exists_downloadAll_of_mem (local_dir : String) (keys : List String) (fs : FS)
    (k : String) (hk : k ∈ keys) :
    (downloadAll local_dir keys fs).exists (download_target local_dir k) = true := by
  induction keys generalizing fs with
  | nil => cases hk
  | cons k0 ks ih =>
    unfold downloadAll
    simp only [List.foldl_cons]
    rcases List.mem_cons.mp hk with rfl | hk2
    · exact exists_downloadAll_mono _ _ _ _ (FS.exists_create_self _ _)
    · exact ih _ hk2

theorem fetchOk_of_listed (args : PipelineArgs) (o : RunOracle) (fs0 : FS)
    (hdr : o.downloadRaises = none) (hne : o.listing ≠ []) :
    fetchOk args o fs0 = true := by
  unfold fetchOk download_chunks
  rw [hdr]
  simp [hne]

theorem fetchFS_of_listed (args : PipelineArgs) (o : RunOracle) (fs0 : FS)
    (hdr : o.downloadRaises = none) (hne : o.listing ≠ []) :
    fetchFS args o fs0 =
      downloadAll args.local_dir o.listing (setup_directories args fs0) := by
  unfold fetchFS download_chunks
  rw [hdr]
  simp [hne]

theorem video_chunk_found (args : PipelineArgs) (o : RunOracle) (fs0 : FS)
    (hdr : o.downloadRaises = none) (k : String) (i : Nat)
    (hk : k ∈ o.listing) (hi : i < 1000)
    (hfile : key_file k = chunk_name "video" i)
    (htype : key_chunk_type k ≠ "audio") :
    (i, chunk_path (args.local_dir ++ "/video") "video" i) ∈ (foundChunks args o fs0).1 := by
  unfold foundChunks
  rw [find_chunk_sequences_eq]
  dsimp only
  rw [mem_scan_chunks]
  refine ⟨hi, ?_, rfl⟩
  rw [fetchFS_of_listed args o fs0 hdr (List.ne_nil_of_mem hk)]
  have htgt : download_target args.local_dir k =
      chunk_path (args.local_dir ++ "/video") "video" i := by
    unfold download_target download_dir chunk_path
    rw [if_neg htype, hfile]
  rw [← htgt]
  exact exists_downloadAll_of_mem _ _ _ _ hk

theorem audio_chunk_found (args : PipelineArgs) (o : RunOracle) (fs0 : FS)
    (hdr : o.downloadRaises = none) (k : String) (i : Nat)
    (hk : k ∈ o.listing) (hi : i < 1000)
    (hfile : key_file k = chunk_name "audio" i)
    (htype : key_chunk_type k = "audio") :
    (i, chunk_path (args.local_dir ++ "/audio") "audio" i) ∈ (foundChunks args o fs0).2 := by
  unfold foundChunks
  rw [find_chunk_sequences_eq]
  dsimp only
  rw [mem_scan_chunks]
  refine ⟨hi, ?_, rfl⟩
  rw [fetchFS_of_listed args o fs0 hdr (List.ne_nil_of_mem hk)]
  have htgt : download_target args.local_dir k =
      chunk_path (args.local_dir ++ "/audio") "audio" i := by
    unfold download_target download_dir chunk_path
    rw [if_pos htype, hfile]
  rw [← htgt]
  exact exists_downloadAll_of_mem _ _ _ _ hk

theorem foundChunks_video_ne (args : PipelineArgs) (o : RunOracle) (fs0 : FS)
    (hdr : o.downloadRaises = none) (k : String) (i : Nat)
    (hk : k ∈ o.listing) (hi : i < 1000)
    (hfile : key_file k = chunk_name "video" i)
    (htype : key_chunk_type k ≠ "audio") :
    (foundChunks args o fs0).1.isEmpty = false :=
  List.isEmpty_eq_false.mpr
    (List.ne_nil_of_mem (video_chunk_found args o fs0 hdr k i hk hi hfile htype))

theorem foundChunks_audio_ne (args : PipelineArgs) (o : RunOracle) (fs0 : FS)
    (hdr : o.downloadRaises = none) (k : String) (i : Nat)
    (hk : k ∈ o.listing) (hi : i < 1000)
    (hfile : key_file k = chunk_name "audio" i)
    (htype : key_chunk_type k = "audio") :
    (foundChunks args o fs0).2.isEmpty = false :=
  List.isEmpty_eq_false.mpr
    (List.ne_nil_of_mem (audio_chunk_found args o fs0 hdr k i hk hi hfile htype))

theorem getLastD_map_mk (l : List (List Char)) (d : List Char) :
    (l.map String.mk).getLastD (String.mk d) = String.mk (l.getLastD d) := by
  induction l generalizing d with
  | nil => rfl
  | cons x xs ih =>
    simp only [List.map_cons, List.getLastD_cons]
    exact ih x

theorem lastD0_map_mk (l : List (List Char)) :
    lastD0 (l.map String.mk) = String.mk (l.getLastD []) :=
  getLastD_map_mk l []

theorem path_name_eq (X : String) (tail : List Char) (htail : ('/' : Char) ∉ tail) :
    path_name (String.mk (X.data ++ '/' :: tail)) = String.mk tail := by
  unfold path_name splitOnC
  rw [lastD0_map_mk]
  rw [show (String.mk (X.data ++ '/' :: tail)).data = X.data ++ '/' :: tail from rfl]
  rw [splitChar_getLastD]
  rw [splitChar_of_not_mem _ _ htail]
  rfl

theorem path_suffix_wav (X now : String)
    (hnos : ('/' : Char) ∉ now.data) (hnod : ('.' : Char) ∉ now.data) :
    path_suffix (X ++ "/audio/audio_" ++ now ++ ".wav") = ".wav" := by
  have hdata : (X ++ "/audio/audio_" ++ now ++ ".wav").data =
      (X ++ "/audio").data ++ '/' :: ("audio_".data ++ now.data ++ ".wav".data) := by
    simp only [String.data_append, List.append_assoc]
    congr 1
  have hp : (X ++ "/audio/audio_" ++ now ++ ".wav") =
      String.mk ((X ++ "/audio").data ++ '/' ::
        ("audio_".data ++ now.data ++ ".wav".data)) :=
    congrArg String.mk hdata
  have htail : ('/' : Char) ∉ "audio_".data ++ now.data ++ ".wav".data := by
    intro hm
    rcases List.mem_append.mp hm with hm1 | hm2
    · rcases List.mem_append.mp hm1 with hm3 | hm4
      · exact absurd hm3 (by decide)
      · exact absurd hm4 hnos
    · exact absurd hm2 (by decide)
  have hsplit : splitChar '.'
      ("audio_".data ++ now.data ++ ".wav".data) =
      [("audio_".data ++ now.data), "wav".data] := by
    have hyw : splitChar '.' ('.' :: "wav".data) = [] :: ["wav".data] := by decide
    have hpre : ('.' : Char) ∉ "audio_".data ++ now.data := by
      intro hm
      rcases List.mem_append.mp hm with hm1 | hm2
      · exact absurd hm1 (by decide)
      · exact absurd hm2 hnod
    have hres := splitChar_append_of_not_mem '.' ("audio_".data ++ now.data)
      ('.' :: "wav".data) [] ["wav".data] hpre hyw
    rw [List.append_assoc] at hres
    simpa using hres
  have hne : String.mk ("audio_".data ++ now.data) ≠ "" := by
    intro h
    have h2 := congrArg String.data h
    have h3 := congrArg List.length h2
    simp only [List.length_append] at h3
    have h4 : ("audio_".data).length = 6 := by decide
    rw [h4] at h3
    simp at h3
  rw [hp]
  simp only [path_suffix, splitOnC]
  rw [path_name_eq _ _ htail]
  rw [show (String.mk ("audio_".data ++ now.data ++ ".wav".data)).data =
    "audio_".data ++ now.data ++ ".wav".data from rfl]
  rw [hsplit]
  simp only [List.map_cons, List.map_nil]
  rw [if_pos ⟨by simp, by simpa [headD0] using hne⟩]
  rfl

theorem run_all_ok (args : PipelineArgs) (o : RunOracle) (fs0 : FS)
    (hff : o.ffmpegOk = true)
    (hdr : o.downloadRaises = none)
    (kv ka : String) (iv ia : Nat)
    (hkv : kv ∈ o.listing) (hiv : iv < 1000)
    (hkvf : key_file kv = chunk_name "video" iv)
    (hkvt : key_chunk_type kv ≠ "audio")
    (hka : ka ∈ o.listing) (hia : ia < 1000)
    (hkaf : key_file ka = chunk_name "audio" ia)
    (hkat : key_chunk_type ka = "audio")
    (hvs : o.videoSplice = SpliceOutcome.ok) (hvr : o.videoRemuxOk = true)
    (has2 : o.audioSplice = SpliceOutcome.ok) (har : o.audioRemuxOk = true)
    (hwav : o.wavForTranscriptionOk = true)
    (hload : o.whisperLoadOk = true)
    (htr : o.transcribeResult.isSome = true)
    (hsave : o.saveWavOk = true) (hmux : o.muxOk = true)
    (hnos : ('/' : Char) ∉ o.now.data) (hnod : ('.' : Char) ∉ o.now.data)
    (hout : ∀ X : String, strStartsWith (args.output_dir ++ X) tempDirPath = false)
    (hupv : o.uploadOk (args.upload_dir ++ "/final_video_" ++ args.user_id ++ ".mp4") = true)
    (hupa : o.uploadOk (args.upload_dir ++ "/final_audio_" ++ args.user_id ++ ".wav") = true)
    (hups : o.uploadOk (args.upload_dir ++ "/subtitle_" ++ args.user_id ++ ".srt") = true) :
    (run args o true false fs0).success = true ∧
    (run args o true false fs0).uploads =
      [(Artifact.video, args.upload_dir ++ "/final_video_" ++ args.user_id ++ ".mp4"),
       (Artifact.audio, args.upload_dir ++ "/final_audio_" ++ args.user_id ++ ".wav"),
       (Artifact.subtitle, args.upload_dir ++ "/subtitle_" ++ args.user_id ++ ".srt")] ∧
    (run args o true false fs0).cleanupRan = true ∧
    (∀ p ∈ (run args o true false fs0).fs, strStartsWith p args.local_dir = false ∧
      strStartsWith p args.output_dir = false) := by
  have hvne : (foundChunks args o fs0).1.isEmpty = false :=
    foundChunks_video_ne args o fs0 hdr kv iv hkv hiv hkvf hkvt
  have hane : (foundChunks args o fs0).2.isEmpty = false :=
    foundChunks_audio_ne args o fs0 hdr ka ia hka hia hkaf hkat
  have hfo : fetchOk args o fs0 = true :=
    fetchOk_of_listed args o fs0 hdr (List.ne_nil_of_mem hkv)
  have hvcs : (videoConcatOut args o fs0).success = true := by
    unfold videoConcatOut
    rw [concat_ok_eq _ _ _ _ hvne hvs hvr]
  have haud : (audioStepOut args o fs0).1 =
      some (tempDirPath ++ "/audio_concatenated.webm") := by
    unfold audioStepOut
    rw [hane]
    simp only [Bool.false_eq_true, if_false]
    rw [concat_ok_eq _ _ _ _ hane has2 har]
    simp
  have hwavst : wavStepOut args o false fs0 =
      (some (tempDirPath ++ "/audio_for_transcription.wav"),
       (audioStepOut args o fs0).2.create (tempDirPath ++ "/audio_for_transcription.wav")) := by
    unfold wavStepOut
    rw [haud, hwav]
    simp
  obtain ⟨r, hr⟩ := Option.isSome_iff_exists.mp htr
  have htrst : trStepOut args o false fs0 =
      (some (args.output_dir ++ "/transcripts" ++ "/transcript_" ++ o.now ++ ".json",
             args.output_dir ++ "/transcripts" ++ "/transcript_" ++ o.now ++ ".srt"),
       ((((audioStepOut args o fs0).2.create
          (tempDirPath ++ "/audio_for_transcription.wav")).create
         (args.output_dir ++ "/transcripts" ++ "/transcript_" ++ o.now ++ ".json")).create
        (args.output_dir ++ "/transcripts" ++ "/transcript_" ++ o.now ++ ".srt"))) := by
    unfold trStepOut
    rw [hwavst]
    simp only [Option.isSome_some, Bool.not_false, Bool.true_and, if_true]
    unfold transcribe_audio
    rw [hload, hr]
    simp [String.append_assoc]
  have hsavest : saveStepOut args o false fs0 =
      (some (final_audio_path args o),
       (trStepOut args o false fs0).2.create (final_audio_path args o)) := by
    unfold saveStepOut
    rw [haud, hsave]
    simp
  have hnv : strStartsWith (final_video_path args o) tempDirPath = false := by
    unfold final_video_path
    rw [String.append_assoc, String.append_assoc]
    exact hout _
  have hna : strStartsWith (final_audio_path args o) tempDirPath = false := by
    unfold final_audio_path
    rw [String.append_assoc, String.append_assoc]
    exact hout _
  have hnsp : strStartsWith
      (args.output_dir ++ "/transcripts" ++ "/transcript_" ++ o.now ++ ".srt")
      tempDirPath = false := by
    rw [String.append_assoc, String.append_assoc, String.append_assoc]
    exact hout _
  have hexv : (publishFS args o false fs0).exists (final_video_path args o) = true := by
    unfold publishFS
    rw [FS.exists_removeTree_of_not_startsWith _ _ _ hnv]
    exact FS.exists_create_self _ _
  have hexa : (publishFS args o false fs0).exists (final_audio_path args o) = true := by
    unfold publishFS
    rw [FS.exists_removeTree_of_not_startsWith _ _ _ hna]
    apply FS.exists_create_mono
    rw [hsavest]
    exact FS.exists_create_self _ _
  have hexs : (publishFS args o false fs0).exists
      (args.output_dir ++ "/transcripts" ++ "/transcript_" ++ o.now ++ ".srt") = true := by
    unfold publishFS
    rw [FS.exists_removeTree_of_not_startsWith _ _ _ hnsp]
    apply FS.exists_create_mono
    rw [hsavest]
    dsimp only
    apply FS.exists_create_mono
    rw [htrst]
    exact FS.exists_create_self _ _
  have hsfx : path_suffix (final_audio_path args o) = ".wav" := by
    unfold final_audio_path
    exact path_suffix_wav args.output_dir o.now hnos hnod
  have hpub : publishOut args o false fs0 =
      (true,
       [(Artifact.video, args.upload_dir ++ "/final_video_" ++ args.user_id ++ ".mp4"),
        (Artifact.audio, args.upload_dir ++ "/final_audio_" ++ args.user_id ++ ".wav"),
        (Artifact.subtitle, args.upload_dir ++ "/subtitle_" ++ args.user_id ++ ".srt")]) := by
    unfold publishOut
    rw [hsavest, htrst]
    unfold upload_processed_files
    dsimp only
    rw [hexv]
    rw [show (publishFS args o false fs0).exists (final_audio_path args o) = true from hexa]
    rw [show (publishFS args o false fs0).exists
      (args.output_dir ++ "/transcripts" ++ "/transcript_" ++ o.now ++ ".srt") = true from hexs]
    rw [hsfx, hupv, hupa, hups]
    simp
  have hbody : runBody args o false fs0 =
      ⟨(publishOut args o false fs0).1, publishFS args o false fs0,
       (publishOut args o false fs0).2, true, false⟩ := by
    unfold runBody
    rw [hff, hfo, hvne, hvcs, hmux]
    simp
  have hrun : run args o true false fs0 =
      ⟨(publishOut args o false fs0).1,
       cleanup_local_files args (publishFS args o false fs0),
       (publishOut args o false fs0).2, true, true⟩ := by
    unfold run
    rw [hbody]
    simp
  rw [hrun, hpub]
  refine ⟨rfl, rfl, rfl, ?_⟩
  intro p hp
  exact cleanup_removes args _ p hp

theorem run_video_fatal (args : PipelineArgs) (o : RunOracle) (cl sk : Bool) (fs0 : FS)
    (hff : o.ffmpegOk = true) (hdr : o.downloadRaises = none)
    (kv : String) (iv : Nat) (hkv : kv ∈ o.listing) (hiv : iv < 1000)
    (hkvf : key_file kv = chunk_name "video" iv) (hkvt : key_chunk_type kv ≠ "audio")
    (hvfail : o.videoSplice ≠ SpliceOutcome.ok ∨ o.videoRemuxOk = false) :
    (run args o cl sk fs0).success = false ∧
    (run args o cl sk fs0).uploads = [] ∧
    (run args o cl sk fs0).muxInvoked = false := by
  have hvne := foundChunks_video_ne args o fs0 hdr kv iv hkv hiv hkvf hkvt
  have hfo := fetchOk_of_listed args o fs0 hdr (List.ne_nil_of_mem hkv)
  have hvcs : (videoConcatOut args o fs0).success = false := by
    unfold videoConcatOut
    exact concat_fail_success _ _ _ _ hvfail
  have hbody : runBody args o sk fs0 =
      ⟨false, (videoConcatOut args o fs0).fs.removeTree tempDirPath, [], false, false⟩ := by
    unfold runBody
    rw [hff, hfo, hvne, hvcs]
    simp
  unfold run
  rw [hbody]
  cases cl <;> simp

theorem run_audio_degrades (args : PipelineArgs) (o : RunOracle) (cl sk : Bool) (fs0 : FS)
    (hff : o.ffmpegOk = true) (hdr : o.downloadRaises = none)
    (kv ka : String) (iv ia : Nat)
    (hkv : kv ∈ o.listing) (hiv : iv < 1000)
    (hkvf : key_file kv = chunk_name "video" iv) (hkvt : key_chunk_type kv ≠ "audio")
    (hka : ka ∈ o.listing) (hia : ia < 1000)
    (hkaf : key_file ka = chunk_name "audio" ia) (hkat : key_chunk_type ka = "audio")
    (hvs : o.videoSplice = SpliceOutcome.ok) (hvr : o.videoRemuxOk = true)
    (hafail : o.audioSplice ≠ SpliceOutcome.ok ∨ o.audioRemuxOk = false)
    (hmux : o.muxOk = true)
    (hout : ∀ X : String, strStartsWith (args.output_dir ++ X) tempDirPath = false)
    (hupv : o.uploadOk (args.upload_dir ++ "/final_video_" ++ args.user_id ++ ".mp4") = true) :
    (run args o cl sk fs0).success = true ∧
    (run args o cl sk fs0).uploads =
      [(Artifact.video, args.upload_dir ++ "/final_video_" ++ args.user_id ++ ".mp4")] := by
  have hvne := foundChunks_video_ne args o fs0 hdr kv iv hkv hiv hkvf hkvt
  have hane := foundChunks_audio_ne args o fs0 hdr ka ia hka hia hkaf hkat
  have hfo := fetchOk_of_listed args o fs0 hdr (List.ne_nil_of_mem hkv)
  have hvcs : (videoConcatOut args o fs0).success = true := by
    unfold videoConcatOut
    rw [concat_ok_eq _ _ _ _ hvne hvs hvr]
  have haud : (audioStepOut args o fs0).1 = none := by
    unfold audioStepOut
    rw [hane]
    simp only [Bool.false_eq_true, if_false]
    have hacs : (concatenate_raw_chunks (foundChunks args o fs0).2
        (tempDirPath ++ "/audio_concatenated.webm")
        ⟨o.audioSplice, o.audioRemuxOk⟩ (videoConcatOut args o fs0).fs).success = false :=
      concat_fail_success _ _ _ _ hafail
    rw [hacs]
    simp
  have hwavst : wavStepOut args o sk fs0 = (none, (audioStepOut args o fs0).2) := by
    unfold wavStepOut
    rw [haud]
    simp
  have htrst : trStepOut args o sk fs0 = (none, (audioStepOut args o fs0).2) := by
    unfold trStepOut
    rw [hwavst]
    simp
  have hsavest : saveStepOut args o sk fs0 = (none, (audioStepOut args o fs0).2) := by
    unfold saveStepOut
    rw [haud, htrst]
    simp
  have hnv : strStartsWith (final_video_path args o) tempDirPath = false := by
    unfold final_video_path
    rw [String.append_assoc, String.append_assoc]
    exact hout _
  have hexv : (publishFS args o sk fs0).exists (final_video_path args o) = true := by
    unfold publishFS
    rw [FS.exists_removeTree_of_not_startsWith _ _ _ hnv]
    exact FS.exists_create_self _ _
  have hpub : publishOut args o sk fs0 =
      (true, [(Artifact.video,
        args.upload_dir ++ "/final_video_" ++ args.user_id ++ ".mp4")]) := by
    unfold publishOut
    rw [hsavest, htrst]
    unfold upload_processed_files
    dsimp only
    rw [hexv, hupv]
    simp
  have hbody : runBody args o sk fs0 =
      ⟨(publishOut args o sk fs0).1, publishFS args o sk fs0,
       (publishOut args o sk fs0).2, true, false⟩ := by
    unfold runBody
    rw [hff, hfo, hvne, hvcs, hmux]
    simp
  unfold run
  rw [hbody, hpub]
  cases cl <;> simp

/-! ## Concrete fixtures used by the witnesses -/

/-- The configuration of the concrete job m1, t1, u1. -/
def testConfig : Config := set_config "m1" "t1" "u1"

/-- Pipeline arguments for the concrete job. -/
def testArgs : PipelineArgs := args_of_config testConfig "base"

/-- A concrete transcription result with one segment. -/
def testResult : WhisperResult :=
  { language := "en", text := "hello world",
    segments := [{ id := 0, start := 0, stop := 1.5, text := " hello world " }] }

/-- A concrete remote listing: three video chunks and two audio chunks
under the source prefix of the job. -/
def testListing : List String :=
  ["recordings/m1/t1/u1/video_0.webm", "recordings/m1/t1/u1/video_1.webm",
   "recordings/m1/t1/u1/video_2.webm", "recordings/m1/t1/u1/audio_0.webm",
   "recordings/m1/t1/u1/audio_1.webm"]

/-- An oracle where every external step succeeds. -/
def allOkOracle : RunOracle :=
  { ffmpegOk := true, listing := testListing, downloadRaises := none,
    videoSplice := SpliceOutcome.ok, videoRemuxOk := true,
    audioSplice := SpliceOutcome.ok, audioRemuxOk := true,
    wavForTranscriptionOk := true, whisperLoadOk := true,
    transcribeResult := some testResult, saveWavOk := true, muxOk := true,
    uploadOk := fun _ => true, now := "2025-01-01_00-00-00" }

/-- Witness for claim C5 at the concrete job with an empty remote listing. -/
theorem C5_empty_listing_fatal_witness :
    ({ allOkOracle with listing := [] } : RunOracle).ffmpegOk = true ∧
    ({ allOkOracle with listing := [] } : RunOracle).listing = [] ∧
    ((run testArgs { allOkOracle with listing := [] } true false []).success = false ∧
     (run testArgs { allOkOracle with listing := [] } true false []).uploads = [] ∧
     (run testArgs { allOkOracle with listing := [] } true false []).muxInvoked = false ∧
     (run testArgs { allOkOracle with listing := [] } true false []).cleanupRan = true ∧
     (∀ p ∈ (run testArgs { allOkOracle with listing := [] } true false []).fs,
       strStartsWith p testArgs.local_dir = false ∧
       strStartsWith p testArgs.output_dir = false)) :=
  ⟨rfl, rfl, C5_empty_listing_fatal testArgs { allOkOracle with listing := [] } false []
    rfl rfl⟩

/-- Claim C7: during publish, the set of attempted uploads does not depend
on the upload outcomes, so a failed upload never stops the remaining
attempts; each existing artifact kind is attempted exactly once (the
attempt tags are distinct, and a kind is attempted exactly when its
artifact exists); the publish boolean holds exactly when every
attempted upload succeeded; and a run reports success only when every
attempted upload succeeded, so one failed upload fails the run overall. -/
theorem C7_publish_attempts :
    (∀ (fs : FS) (uok uok' : String → Bool) (ud uid : String) (vp ap : Option String)
      (tp : Option (String × String)),
      (upload_processed_files fs uok ud uid vp ap tp).2 =
        (upload_processed_files fs uok' ud uid vp ap tp).2 ∧
      ((upload_processed_files fs uok ud uid vp ap tp).2.map Prod.fst).Nodup ∧
      ((∃ k, (Artifact.video, k) ∈ (upload_processed_files fs uok ud uid vp ap tp).2) ↔
        ∃ vpath, vp = some vpath ∧ fs.exists vpath = true) ∧
      ((∃ k, (Artifact.audio, k) ∈ (upload_processed_files fs uok ud uid vp ap tp).2) ↔
        ∃ apath, ap = some apath ∧ fs.exists apath = true) ∧
      ((∃ k, (Artifact.subtitle, k) ∈ (upload_processed_files fs uok ud uid vp ap tp).2) ↔
        ∃ js, tp = some js ∧ fs.exists js.2 = true) ∧
      (upload_processed_files fs uok ud uid vp ap tp).1 =
        (upload_processed_files fs uok ud uid vp ap tp).2.all (fun e => uok e.2)) ∧
    (∀ (args : PipelineArgs) (o : RunOracle) (cl sk : Bool) (fs0 : FS),
      (run args o cl sk fs0).success = true →
      (run args o cl sk fs0).uploads.all (fun e => o.uploadOk e.2) = true) := by
  constructor
  · intro fs uok uok' ud uid vp ap tp
    exact ⟨upload_attempts_indep fs uok uok' ud uid vp ap tp,
      upload_tags_nodup fs uok ud uid vp ap tp,
      upload_video_attempted_iff fs uok ud uid vp ap tp,
      upload_audio_attempted_iff fs uok ud uid vp ap tp,
      upload_subtitle_attempted_iff fs uok ud uid vp ap tp,
      upload_success_eq_all fs uok ud uid vp ap tp⟩
  · intro args o cl sk fs0
    unfold run
    dsimp only
    by_cases hcl : cl = true
    · rw [if_pos hcl]
      dsimp only
      exact runBody_success_uploads args o sk fs0
    · rw [if_neg hcl]
      exact runBody_success_uploads args o sk fs0

/-- Witness for claim C7: the component part at a concrete publish call,
and the run part at the concrete all success run. -/

theorem C7_publish_attempts_witness :
    ((upload_processed_files ["v.mp4", "t.srt"] (fun _ => true) "recordings/m1/t1" "u1"
        (some "v.mp4") (some "a.wav") (some ("t.json", "t.srt"))).2 =
      (upload_processed_files ["v.mp4", "t.srt"] (fun _ => false) "recordings/m1/t1" "u1"
        (some "v.mp4") (some "a.wav") (some ("t.json", "t.srt"))).2) ∧
    ((run testArgs allOkOracle true false []).success = true ∧
     (run testArgs allOkOracle true false []).uploads.all
       (fun e => allOkOracle.uploadOk e.2) = true) :=
  have hs : (run testArgs allOkOracle true false []).success = true :=
    (run_all_ok testArgs allOkOracle [] rfl rfl
      "recordings/m1/t1/u1/video_0.webm" "recordings/m1/t1/u1/audio_0.webm" 0 0
      (by decide) (by decide) (by decide) (by decide)
      (by decide) (by decide) (by decide) (by decide)
      rfl rfl rfl rfl rfl rfl rfl rfl rfl
      (by decide) (by decide) (fun _ => rfl) rfl rfl rfl).1
  ⟨(C7_publish_attempts.1 ["v.mp4", "t.srt"] (fun _ => true) (fun _ => false)
      "recordings/m1/t1" "u1" (some "v.mp4") (some "a.wav")
      (some ("t.json", "t.srt"))).1,
   hs, C7_publish_attempts.2 testArgs allOkOracle true false [] hs⟩

/-- Claim C4: failure of the video track assembly (splice or remux) is
fatal: the run reports failure with no mux and no upload; failure of
the audio track assembly when video assembly succeeded merely degrades
the run to video only, which still publishes the video deliverable and
reports success. -/
theorem C4_video_fatal_audio_degrades :
    (∀ (args : PipelineArgs) (o : RunOracle) (cl sk : Bool) (fs0 : FS)
      (kv : String) (iv : Nat),
      o.ffmpegOk = true → o.downloadRaises = none →
      kv ∈ o.listing → iv < 1000 →
      key_file kv = chunk_name "video" iv → key_chunk_type kv ≠ "audio" →
      (o.videoSplice ≠ SpliceOutcome.ok ∨ o.videoRemuxOk = false) →
      ((run args o cl sk fs0).success = false ∧
       (run args o cl sk fs0).uploads = [] ∧
       (run args o cl sk fs0).muxInvoked = false)) ∧
    (∀ (args : PipelineArgs) (o : RunOracle) (cl sk : Bool) (fs0 : FS)
      (kv ka : String) (iv ia : Nat),
      o.ffmpegOk = true → o.downloadRaises = none →
      kv ∈ o.listing → iv < 1000 →
      key_file kv = chunk_name "video" iv → key_chunk_type kv ≠ "audio" →
      ka ∈ o.listing → ia < 1000 →
      key_file ka = chunk_name "audio" ia → key_chunk_type ka = "audio" →
      o.videoSplice = SpliceOutcome.ok → o.videoRemuxOk = true →
      (o.audioSplice ≠ SpliceOutcome.ok ∨ o.audioRemuxOk = false) →
      o.muxOk = true →
      (∀ X : String, strStartsWith (args.output_dir ++ X) tempDirPath = false) →
      o.uploadOk (args.upload_dir ++ "/final_video_" ++ args.user_id ++ ".mp4") = true →
      ((run args o cl sk fs0).success = true ∧
       (run args o cl sk fs0).uploads =
         [(Artifact.video,
           args.upload_dir ++ "/final_video_" ++ args.user_id ++ ".mp4")])) := by
  constructor
  · intro args o cl sk fs0 kv iv hff hdr hkv hiv hkvf hkvt hvfail
    exact run_video_fatal args o cl sk fs0 hff hdr kv iv hkv hiv hkvf hkvt hvfail
  · intro args o cl sk fs0 kv ka iv ia hff hdr hkv hiv hkvf hkvt hka hia hkaf hkat
      hvs hvr hafail hmux hout hupv
    exact run_audio_degrades args o cl sk fs0 hff hdr kv ka iv ia hkv hiv hkvf hkvt
      hka hia hkaf hkat hvs hvr hafail hmux hout hupv

/-- Witness for claim C4: a concrete run whose video remux fails reports
failure with no upload and no mux, and a concrete run whose audio remux
fails still succeeds publishing only the video deliverable. -/
theorem C4_video_fatal_audio_degrades_witness :
    ((run testArgs { allOkOracle with videoRemuxOk := false } true false []).success = false ∧
     (run testArgs { allOkOracle with videoRemuxOk := false } true false []).uploads = [] ∧
     (run testArgs { allOkOracle with videoRemuxOk := false } true false []).muxInvoked
       = false) ∧
    ((run testArgs { allOkOracle with audioRemuxOk := false } true false []).success = true ∧
     (run testArgs { allOkOracle with audioRemuxOk := false } true false []).uploads =
       [(Artifact.video,
         testArgs.upload_dir ++ "/final_video_" ++ testArgs.user_id ++ ".mp4")]) :=
  ⟨C4_video_fatal_audio_degrades.1 testArgs { allOkOracle with videoRemuxOk := false }
      true false [] "recordings/m1/t1/u1/video_0.webm" 0 rfl rfl
      (by decide) (by decide) (by decide) (by decide) (Or.inr rfl),
   C4_video_fatal_audio_degrades.2 testArgs { allOkOracle with audioRemuxOk := false }
      true false [] "recordings/m1/t1/u1/video_0.webm" "recordings/m1/t1/u1/audio_0.webm"
      0 0 rfl rfl (by decide) (by decide) (by decide) (by decide)
      (by decide) (by decide) (by decide) (by decide)
      rfl rfl (Or.inr rfl) rfl (fun _ => rfl) rfl⟩

/-- Claim C1 (amended): for every job whose source prefix holds at least
one video chunk and at least one audio chunk, with transcription
requested and every external step succeeding, the run returns success
and uploads the muxed video under
uploadPrefix slash meetingId slash takeId as final_video_userId.mp4,
the extracted audio as final_audio_userId.wav and the subtitle as
subtitle_userId.srt under the same prefix; the structured transcript is
generated and saved locally but its upload is never attempted (that
block is commented out in the source); and the local working
directories are removed afterward. -/
theorem C1_run_uploads (m t u wm : String) (o : RunOracle) (fs0 : FS)
    (hff : o.ffmpegOk = true)
    (hdr : o.downloadRaises = none)
    (kv ka : String) (iv ia : Nat)
    (hkv : kv ∈ o.listing) (hiv : iv < 1000)
    (hkvf : key_file kv = chunk_name "video" iv)
    (hkvt : key_chunk_type kv ≠ "audio")
    (hka : ka ∈ o.listing) (hia : ia < 1000)
    (hkaf : key_file ka = chunk_name "audio" ia)
    (hkat : key_chunk_type ka = "audio")
    (hvs : o.videoSplice = SpliceOutcome.ok) (hvr : o.videoRemuxOk = true)
    (has2 : o.audioSplice = SpliceOutcome.ok) (har : o.audioRemuxOk = true)
    (hwav : o.wavForTranscriptionOk = true)
    (hload : o.whisperLoadOk = true)
    (htr : o.transcribeResult.isSome = true)
    (hsave : o.saveWavOk = true) (hmux : o.muxOk = true)
    (hnos : ('/' : Char) ∉ o.now.data) (hnod : ('.' : Char) ∉ o.now.data)
    (hupv : o.uploadOk ((set_config m t u).UPLOAD_DIR ++ "/final_video_" ++ u
      ++ ".mp4") = true)
    (hupa : o.uploadOk ((set_config m t u).UPLOAD_DIR ++ "/final_audio_" ++ u
      ++ ".wav") = true)
    (hups : o.uploadOk ((set_config m t u).UPLOAD_DIR ++ "/subtitle_" ++ u
      ++ ".srt") = true) :
    (run (args_of_config (set_config m t u) wm) o true false fs0).success = true ∧
    (run (args_of_config (set_config m t u) wm) o true false fs0).uploads =
      [(Artifact.video, (set_config m t u).UPLOAD_DIR ++ "/final_video_" ++ u ++ ".mp4"),
       (Artifact.audio, (set_config m t u).UPLOAD_DIR ++ "/final_audio_" ++ u ++ ".wav"),
       (Artifact.subtitle, (set_config m t u).UPLOAD_DIR ++ "/subtitle_" ++ u ++ ".srt")] ∧
    (∀ e ∈ (run (args_of_config (set_config m t u) wm) o true false fs0).uploads,
      e.1 ≠ Artifact.transcriptJson) ∧
    (run (args_of_config (set_config m t u) wm) o true false fs0).cleanupRan = true ∧
    (∀ p ∈ (run (args_of_config (set_config m t u) wm) o true false fs0).fs,
      strStartsWith p (set_config m t u).LOCAL_DIR = false ∧
      strStartsWith p (set_config m t u).OUTPUT_DIR = false) := by
  obtain ⟨h1, h2, h3, h4⟩ := run_all_ok (args_of_config (set_config m t u) wm) o fs0
    hff hdr kv ka iv ia hkv hiv hkvf hkvt hka hia hkaf hkat hvs hvr has2 har
    hwav hload htr hsave hmux hnos hnod (fun _ => rfl) hupv hupa hups
  refine ⟨h1, h2, ?_, h3, h4⟩
  intro e he
  rw [h2] at he
  simp only [List.mem_cons, List.not_mem_nil, or_false] at he
  rcases he with rfl | rfl | rfl <;> simp

/-- Counterexample for claim C1 as stated: at a concrete job where every
external step succeeds the run returns success, yet exactly three
uploads are attempted, the video, the audio and the subtitle; no upload
of the structured transcript occurs, contrary to the claim. -/
theorem C1_no_transcript_upload :
    (run testArgs allOkOracle true false []).success = true ∧
    ((run testArgs allOkOracle true false []).uploads.map Prod.fst) =
      [Artifact.video, Artifact.audio, Artifact.subtitle] ∧
    (∀ e ∈ (run testArgs allOkOracle true false []).uploads,
      e.1 ≠ Artifact.transcriptJson) := by
  obtain ⟨h1, h2, h3, h4⟩ := run_all_ok testArgs allOkOracle [] rfl rfl
    "recordings/m1/t1/u1/video_0.webm" "recordings/m1/t1/u1/audio_0.webm" 0 0
    (by decide) (by decide) (by decide) (by decide)
    (by decide) (by decide) (by decide) (by decide)
    rfl rfl rfl rfl rfl rfl rfl rfl rfl
    (by decide) (by decide) (fun _ => rfl) rfl rfl rfl
  refine ⟨h1, ?_, ?_⟩
  · rw [h2]
    rfl
  · intro e he
    rw [h2] at he
    simp only [List.mem_cons, List.not_mem_nil, or_false] at he
    rcases he with rfl | rfl | rfl <;> simp

/-- Witness for the amended claim C1 at the concrete job m1, t1, u1 with
every external step succeeding. -/
theorem C1_run_uploads_witness :
    (run (args_of_config (set_config "m1" "t1" "u1") "base") allOkOracle
      true false []).success = true ∧
    (run (args_of_config (set_config "m1" "t1" "u1") "base") allOkOracle
      true false []).uploads =
      [(Artifact.video, (set_config "m1" "t1" "u1").UPLOAD_DIR ++ "/final_video_"
          ++ "u1" ++ ".mp4"),
       (Artifact.audio, (set_config "m1" "t1" "u1").UPLOAD_DIR ++ "/final_audio_"
          ++ "u1" ++ ".wav"),
       (Artifact.subtitle, (set_config "m1" "t1" "u1").UPLOAD_DIR ++ "/subtitle_"
          ++ "u1" ++ ".srt")] :=
  have h := C1_run_uploads "m1" "t1" "u1" "base" allOkOracle [] rfl rfl
    "recordings/m1/t1/u1/video_0.webm" "recordings/m1/t1/u1/audio_0.webm" 0 0
    (by decide) (by decide) (by decide) (by decide)
    (by decide) (by decide) (by decide) (by decide)
    rfl rfl rfl rfl rfl rfl rfl rfl rfl
    (by decide) (by decide) rfl rfl rfl
  ⟨h.1, h.2.1⟩
